import Mathlib

/-!
Verification of the conversational core of the Vietnamese business-registration
RAG chatbot (intent classification, retrieval/reranking, the guided
form-collection state machine, and the orchestrator error boundary).

Strings are modelled as lists of characters (`Vstr`), Python floats as
rationals, Python dicts either as records (when the key set is fixed) or as
insertion-ordered association lists, and Python exceptions as `Except`.
External collaborators (the LLM backend, the vector store, the cross-encoder
scorer) are parameters of the embedded functions, so theorems quantify over
all of their possible behaviours.
-/

/-- Python strings, modelled as lists of characters. -/
abbrev Vstr := List Char

namespace StrOps

/-- Here `startsWith h n` is true when `n` is a leading segment of `h`. -/
def startsWith : Vstr → Vstr → Bool
  | _, [] => true
  | [], _ :: _ => false
  | a :: as, b :: bs => a = b && startsWith as bs

/-- Models the Python substring test `needle in hay`. -/
def containsSeq (needle : Vstr) : Vstr → Bool
  | [] => needle.isEmpty
  | c :: t => startsWith (c :: t) needle || containsSeq needle t

/-- Python-style whitespace test used by `str.strip()` (ASCII subset). -/
def isWs (c : Char) : Bool := c = ' ' || c = '\t' || c = '\n' || c = '\r'

/-- Models Python `str.strip()`: remove leading and trailing whitespace. -/
def pyStrip (s : Vstr) : Vstr :=
  ((s.dropWhile isWs).reverse.dropWhile isWs).reverse

/-- Models Python `str.lower()` restricted to the characters appearing in this
code base (ASCII letters plus the Vietnamese letter Đ). -/
def pyLowerChar (c : Char) : Char :=
  if c = 'Đ' then 'đ' else c.toLower

/-- Character-wise lowering of a string. -/
def pyLower (s : Vstr) : Vstr := s.map pyLowerChar

/-- Models `"\n".join(parts)`. -/
def joinNl : List Vstr → Vstr
  | [] => []
  | [x] => x
  | x :: y :: xs => x ++ '\n' :: joinNl (y :: xs)

/-- Models the Python slice `l[-n:]` for `n > 0`. -/
def lastN (n : Nat) (l : List α) : List α := l.drop (l.length - n)

/-- Python `re` semantics of a trailing `$`: the pattern may also stop just
before a single newline at the very end of the subject. -/
def stripTrailingNl (s : Vstr) : Vstr :=
  match s.getLast? with
  | some c => if c = '\n' then s.dropLast else s
  | none => s

end StrOps

open StrOps

/-! ## Field-value validation primitives (template_parser.py, chat_use_case.py) -/

namespace Validation

/-- Character class `[a-zA-Z0-9._%+-]` of the email regex local part. -/
def localChar (c : Char) : Bool :=
  c.isAlpha || c.isDigit || c = '.' || c = '_' || c = '%' || c = '+' || c = '-'

/-- Character class `[a-zA-Z0-9.-]` of the email regex domain part. -/
def domChar (c : Char) : Bool := c.isAlpha || c.isDigit || c = '.' || c = '-'

/-- Matches `[a-zA-Z]{2,}` up to the end of the string: the regex engine must
put the final literal dot at the last dot of the domain, since the top-level
part may not contain one. -/
def tldOk (b : Vstr) : Bool := decide (2 ≤ b.length) && b.all (·.isAlpha)

/-- The part of the email regex after the `@`: `[a-zA-Z0-9.-]+\.[a-zA-Z]{2,}`.
Equivalent to splitting at the last dot. -/
def domMatch (dom : Vstr) : Bool :=
  let r := dom.reverse
  let p := r.span (fun c => c != '.')
  match p.2 with
  | [] => false
  | _ :: aRev =>
    let a := aRev.reverse
    !a.isEmpty && a.all domChar && tldOk p.1.reverse

/-- Models `re.match(r'^[a-zA-Z0-9._%+-]+@[a-zA-Z0-9.-]+\.[a-zA-Z]{2,}$', s)`
from ChatUseCase._validate_field_value. The local part stops at the first `@`
(the classes exclude `@`), and a trailing `$` also accepts a single final
newline. -/
def emailMatch (s0 : Vstr) : Bool :=
  let s := stripTrailingNl s0
  let p := s.span (fun c => c != '@')
  match p.2 with
  | [] => false
  | _ :: dom => !p.1.isEmpty && p.1.all localChar && domMatch dom

/-- Models `re.match(r'^\d{2}/\d{2}/\d{4}$', s)` (both validators): exactly
`dd/mm/yyyy`, using the ASCII digit class. -/
def dateMatch (s0 : Vstr) : Bool :=
  match stripTrailingNl s0 with
  | [d1, d2, a, m1, m2, b, y1, y2, y3, y4] =>
    d1.isDigit && d2.isDigit && a = '/' && m1.isDigit && m2.isDigit && b = '/' &&
      y1.isDigit && y2.isDigit && y3.isDigit && y4.isDigit
  | _ => false

/-- Digit run with an optional decimal point: `123`, `12.`, `.5`, `1.5`. -/
def mantissaOk (m : Vstr) : Bool :=
  let p := m.span (·.isDigit)
  match p.2 with
  | [] => !p.1.isEmpty
  | '.' :: frac => frac.all (·.isDigit) && (!p.1.isEmpty || !frac.isEmpty)
  | _ => false

/-- Optionally signed nonempty digit run (a float exponent). -/
def signedDigits (e : Vstr) : Bool :=
  match e with
  | c :: r => if c = '+' || c = '-' then !r.isEmpty && r.all (·.isDigit)
              else !e.isEmpty && e.all (·.isDigit)
  | [] => false

/-- Models CPython `float(s)` acceptance: surrounding whitespace, optional
sign, then a decimal mantissa with optional exponent, or inf/infinity/nan
(case-insensitive). Digit-group underscores are omitted; no claim in this
development depends on the number branch. -/
def pyFloatParses (s : Vstr) : Bool :=
  let t := pyStrip s
  let u := match t with
    | c :: r => if c = '+' || c = '-' then r else t
    | [] => t
  let low := u.map Char.toLower
  (low = "inf".data || low = "infinity".data || low = "nan".data) ||
    (let p := u.span (fun c => c != 'e' && c != 'E')
     match p.2 with
     | [] => mantissaOk p.1
     | _ :: ex => mantissaOk p.1 && signedDigits ex)

/-- Models Python `str.replace(",", "").replace(".", "")` used by the number
branch of both validators. -/
def stripSeparators (s : Vstr) : Vstr :=
  s.filter (fun c => c != ',' && c != '.')

end Validation

open Validation

/-! ## Intent classification (infrastructure/services/intent_classification_service.py)

`GroqIntentClassificationService.classify_intent` lower-cases and trims the
backend reply, then resolves it to one of the three canonical intents with a
confidence. `classifyReply` embeds the resolution policy (lines 107-130 of
the source); its argument is the already trimmed, lower-cased reply (the
code's `intent` local variable). Confidences are modelled as rationals. -/

/-- The canonical intent keywords, in the iteration order of the
`self.intents` dict: legal, business, general. -/
def intentKeys : List Vstr := ["legal".data, "business".data, "general".data]

/-- Resolution policy of GroqIntentClassificationService.classify_intent:
exact dict-key match gives confidence 0.9; otherwise the first canonical
keyword occurring as a substring gives 0.7; otherwise the fallback is
`general` with 0.5. -/
def classifyReply (reply : Vstr) : Vstr × ℚ :=
  if reply ∈ intentKeys then
    (reply, 9/10)
  else
    match intentKeys.find? (fun k => containsSeq k reply) with
    | some k => (k, 7/10)
    | none => ("general".data, 1/2)

/-! ## Retrieval pipeline (retriever.py)

`EnhancedRetriever.retrieve` calls the vector store, filters by similarity
threshold, reranks via the external cross-encoder and truncates.  The vector
store result dicts carry `content`, `metadata` (of which only `chunk_title`
matters to reranking) and `score`; `_rerank_documents` later adds the
`rerank_score` and `original_score` keys and overwrites `score`, which is
modelled with `Option` fields that start out `none`.  The cross-encoder is a
parameter `scorer`; `Except.error` models `predict` raising. -/

/-- One vector-store search hit (vector_store.py builds dicts with `content`,
`metadata` and similarity `score`; metadata keys other than `chunk_title` are
never read by the retriever and are omitted). -/
structure SearchHit where
  content : Vstr
  chunkTitle : Option Vstr
  score : ℚ
deriving DecidableEq, Repr

/-- A retriever-pipeline document dict: the search-hit keys plus the keys the
reranker may add. `none` models an absent dict key. -/
structure PyDoc where
  content : Vstr
  chunkTitle : Option Vstr
  score : ℚ
  rerankScore : Option ℚ
  originalScore : Option ℚ
deriving DecidableEq, Repr

/-- The fresh pipeline dict for a search hit (no rerank keys yet). -/
def SearchHit.toDoc (h : SearchHit) : PyDoc :=
  { content := h.content, chunkTitle := h.chunkTitle, score := h.score,
    rerankScore := none, originalScore := none }

/-- Python truthiness of `doc['metadata'].get('chunk_title')`: present and
nonempty. -/
def titleTruthy : Option Vstr → Bool
  | none => false
  | some t => !t.isEmpty

/-- Representative text for reranking: `"{chunk_title}: {content}"` when a
truthy title exists, else the raw content (retriever.py lines 84-89). -/
def docRepText (d : PyDoc) : Vstr :=
  match d.chunkTitle with
  | some t => if !t.isEmpty then t ++ ": ".data ++ d.content else d.content
  | none => d.content

/-- The value `doc['rerank_score']` as read by the sort key (present on every document
the sort ever sees). -/
def rerankKey (d : PyDoc) : ℚ := d.rerankScore.getD 0

/-- Annotation of one document with its cross-encoder score
(retriever.py lines 95-98): add `rerank_score` and `original_score`, replace
`score`. -/
def annotate (d : PyDoc) (s : ℚ) : PyDoc :=
  { d with rerankScore := some s, originalScore := some d.score, score := s }

/-- Models `EnhancedRetriever._rerank_documents`.  Lists of length ≤ 1 are
passed through before the `try`.  A raising `predict` is `Except.error`: the
documents are returned unmutated in their original order.  When `predict`
returns fewer scores than documents, the Python loop mutates a prefix and
then raises `IndexError`, which the same `except` turns into returning the
(partially annotated) list in its original order; otherwise every document is
annotated and the list is sorted descending by `rerank_score` (stable, like
Python `sorted(..., reverse=True)`). -/
def rerank_documents (scorer : List (Vstr × Vstr) → Except Vstr (List ℚ))
    (query : Vstr) (documents : List PyDoc) : List PyDoc :=
  if documents.length ≤ 1 then documents
  else
    match scorer (documents.map (fun d => (query, docRepText d))) with
    | Except.error _ => documents
    | Except.ok scores =>
      if scores.length < documents.length then
        documents.zipWith annotate scores ++ documents.drop scores.length
      else
        (documents.zipWith annotate scores).mergeSort
          (fun a b => decide (rerankKey b ≤ rerankKey a))

/-- Models `EnhancedRetriever._enhance_query_with_context` (falsy context
means no rewrite). -/
def enhance_query_with_context (query : Vstr) (context : Option Vstr) : Vstr :=
  match context with
  | none => query
  | some c => if c.isEmpty then query
              else "Bối cảnh: ".data ++ c ++ "\nCâu hỏi: ".data ++ query

/-- Models `EnhancedRetriever.retrieve`, lines 26-64: the vector-store call is
replaced by its result `initialDocs`; empty search results and an empty
post-threshold list both short-circuit to `[]`; otherwise the filtered list
is reranked and truncated to `rerank_top_k`. -/
def retrieve (similarityThreshold : ℚ) (rerankTopK : Nat)
    (scorer : List (Vstr × Vstr) → Except Vstr (List ℚ))
    (query : Vstr) (context : Option Vstr)
    (initialDocs : List SearchHit) : List PyDoc :=
  let enhancedQuery := enhance_query_with_context query context
  if initialDocs.isEmpty then []
  else
    let filteredDocs := initialDocs.filter (fun d => similarityThreshold ≤ d.score)
    if filteredDocs.isEmpty then []
    else
      (rerank_documents scorer enhancedQuery (filteredDocs.map SearchHit.toDoc)).take
        rerankTopK

/-- The vector-similarity score a pipeline document was admitted with:
`original_score` once reranking has stashed it there, else the (still
untouched) `score` field. -/
def simScore (d : PyDoc) : ℚ := d.originalScore.getD d.score

/-! ## Template catalog and legacy validator (template_parser.py)

`TemplateParser` holds `self.templates`, an insertion-ordered dict mapping
template file names to their hard-coded field lists (the `_extract_*`
functions).  Only the field lists matter to the claims, so the catalog is a
list of field lists in dict insertion order (the fixed `template_files`
order), assuming the five template files are present on disk. -/

/-- A field definition as built by the `_extract_*` functions of
template_parser.py. -/
structure TPField where
  fieldName : Vstr
  displayName : Vstr
  fieldType : Vstr
  required : Bool
  description : Vstr
deriving DecidableEq, Repr

/-- One form-collection question dict as built by
`generate_form_collection_questions` (template_parser.py lines 305-311).
These dicts have exactly the keys `field_name`, `question`, `field_type`,
`description` and `required` — in particular no `display_name` key. -/
structure GenQuestion where
  fieldName : Vstr
  question : Vstr
  fieldType : Vstr
  description : Vstr
  required : Bool
deriving DecidableEq, Repr

/-- Python subscript access `q[k]` for the string-valued keys of a generated
question dict; any other key raises `KeyError(k)`.  (The remaining key
`required` is boolean-valued and is never subscripted in chatbot.py.) -/
def GenQuestion.lookup (q : GenQuestion) (k : Vstr) : Except Vstr Vstr :=
  if k = "field_name".data then Except.ok q.fieldName
  else if k = "question".data then Except.ok q.question
  else if k = "field_type".data then Except.ok q.fieldType
  else if k = "description".data then Except.ok q.description
  else Except.error k

/-- The question dict generated for one required field. -/
def mkQuestion (f : TPField) : GenQuestion :=
  { fieldName := f.fieldName,
    question := "Vui lòng nhập ".data ++ pyLower f.displayName ++ ":".data,
    fieldType := f.fieldType,
    description := f.description,
    required := f.required }

/-- The seen-set fold of `generate_form_collection_questions` over the
concatenated field lists (the two nested Python loops visit exactly the
concatenation, in order). -/
def genQuestionsAux : List TPField → List Vstr → List GenQuestion
  | [], _ => []
  | f :: fs, seen =>
    if f.fieldName ∉ seen ∧ f.required then
      mkQuestion f :: genQuestionsAux fs (f.fieldName :: seen)
    else
      genQuestionsAux fs seen

/-- Models `TemplateParser.generate_form_collection_questions` (lines
293-314): required fields of all templates, deduplicated by field name with a
seen set, in first-seen order. -/
def generate_form_collection_questions (catalog : List (List TPField)) : List GenQuestion :=
  genQuestionsAux catalog.flatten []

/-- Models `TemplateParser.validate_field_value` (lines 316-348).  The first
field with the given name across the templates is the definition; unknown
fields are vacuously valid.  Branches exist for `date`, `number` and `text`
only — any other field type (in particular `email`) falls through to valid. -/
def validate_field_value (catalog : List (List TPField)) (fieldName value : Vstr) :
    Bool × Vstr :=
  match catalog.flatten.find? (fun f => decide (f.fieldName = fieldName)) with
  | none => (true, [])
  | some f =>
    if f.fieldType = "date".data then
      if dateMatch value then (true, [])
      else (false, "Định dạng ngày không đúng. Vui lòng nhập theo format dd/mm/yyyy".data)
    else if f.fieldType = "number".data then
      if pyFloatParses (stripSeparators value) then (true, [])
      else (false, "Giá trị phải là số".data)
    else if f.fieldType = "text".data then
      if f.required && (pyStrip value).isEmpty then (false, "Trường này là bắt buộc".data)
      else (true, [])
    else (true, [])

/-- Models `_extract_owner_fields` (template_parser.py lines 106-144). -/
def ownerFields : List TPField :=
  [ ⟨"chu_so_huu_ho_ten".data, "Họ và tên chủ sở hữu".data, "text".data, true,
      "Họ và tên đầy đủ của chủ sở hữu công ty".data⟩,
    ⟨"chu_so_huu_cccd".data, "Số CMND/CCCD".data, "text".data, true,
      "Số chứng minh nhân dân hoặc căn cước công dân".data⟩,
    ⟨"chu_so_huu_ngay_sinh".data, "Ngày sinh".data, "date".data, true,
      "Ngày sinh của chủ sở hữu (dd/mm/yyyy)".data⟩,
    ⟨"chu_so_huu_dia_chi".data, "Địa chỉ thường trú".data, "text".data, true,
      "Địa chỉ thường trú của chủ sở hữu".data⟩,
    ⟨"chu_so_huu_dien_thoai".data, "Số điện thoại".data, "text".data, false,
      "Số điện thoại liên hệ".data⟩ ]

/-- Models `_extract_shareholder_fields` (lines 146-177). -/
def shareholderFields : List TPField :=
  [ ⟨"co_dong_ho_ten".data, "Họ và tên cổ đông".data, "text".data, true,
      "Họ và tên đầy đủ của cổ đông".data⟩,
    ⟨"co_dong_cccd".data, "Số CMND/CCCD".data, "text".data, true,
      "Số chứng minh nhân dân hoặc căn cước công dân".data⟩,
    ⟨"co_dong_ty_le_von".data, "Tỷ lệ góp vốn (%)".data, "number".data, true,
      "Tỷ lệ phần trăm góp vốn của cổ đông".data⟩,
    ⟨"co_dong_gia_tri_von".data, "Giá trị vốn góp".data, "number".data, true,
      "Giá trị vốn góp bằng tiền (VNĐ)".data⟩ ]

/-- Models `_extract_company_charter_fields` (lines 179-217). -/
def charterFields : List TPField :=
  [ ⟨"ten_cong_ty".data, "Tên công ty".data, "text".data, true,
      "Tên đầy đủ của công ty".data⟩,
    ⟨"ten_cong_ty_tieng_anh".data, "Tên công ty (tiếng Anh)".data, "text".data, false,
      "Tên công ty bằng tiếng Anh (nếu có)".data⟩,
    ⟨"dia_chi_tru_so".data, "Địa chỉ trụ sở chính".data, "text".data, true,
      "Địa chỉ đầy đủ của trụ sở chính công ty".data⟩,
    ⟨"von_dieu_le".data, "Vốn điều lệ".data, "number".data, true,
      "Vốn điều lệ của công ty (VNĐ)".data⟩,
    ⟨"nganh_nghe_kinh_doanh".data, "Ngành nghề kinh doanh".data, "text".data, true,
      "Mô tả chi tiết các ngành nghề kinh doanh".data⟩ ]

/-- Models `_extract_application_fields` (lines 219-243). -/
def applicationFields : List TPField :=
  [ ⟨"nguoi_dai_dien".data, "Người đại diện pháp luật".data, "text".data, true,
      "Họ tên người đại diện pháp luật".data⟩,
    ⟨"chuc_vu_dai_dien".data, "Chức vụ".data, "text".data, true,
      "Chức vụ của người đại diện (Giám đốc, Tổng Giám đốc, ...)".data⟩,
    ⟨"ngay_lap_don".data, "Ngày lập đơn".data, "date".data, true,
      "Ngày lập đơn đăng ký (dd/mm/yyyy)".data⟩ ]

/-- Models `_extract_authorization_fields` (lines 245-269). -/
def authorizationFields : List TPField :=
  [ ⟨"nguoi_uy_quyen".data, "Người ủy quyền".data, "text".data, true,
      "Họ tên người ủy quyền".data⟩,
    ⟨"nguoi_duoc_uy_quyen".data, "Người được ủy quyền".data, "text".data, true,
      "Họ tên người được ủy quyền".data⟩,
    ⟨"noi_dung_uy_quyen".data, "Nội dung ủy quyền".data, "text".data, true,
      "Mô tả cụ thể những việc được ủy quyền".data⟩ ]

/-- The loaded legacy catalog, in `template_files` order, when all five
template files exist. -/
def legacyCatalog : List (List TPField) :=
  [ownerFields, shareholderFields, charterFields, applicationFields, authorizationFields]

/-! ## Legacy orchestrator form collection (chatbot.py)

`ConversationalRAGChatbot.form_collection_state` is the dict with keys
`active`, `current_field_index`, `collected_data` and `questions`; collected
data is an insertion-ordered dict.  `_handle_form_collection` and
`_complete_form_collection` are embedded as `Except`-valued functions: an
`Except.error k` models an uncaught Python `KeyError(k)` escaping the turn
(process_message has no try/except). -/

/-- The legacy form-collection state dict. -/
structure FormCollectionState where
  active : Bool
  currentFieldIndex : Nat
  collectedData : List (Vstr × Vstr)
  questions : List GenQuestion
deriving DecidableEq, Repr

/-- Python dict assignment `d[k] = v` on an insertion-ordered dict: overwrite
in place when the key exists, else append. -/
def dictInsert (d : List (Vstr × Vstr)) (k v : Vstr) : List (Vstr × Vstr) :=
  if d.any (fun p => decide (p.1 = k)) then
    d.map (fun p => if p.1 = k then (k, v) else p)
  else d ++ [(k, v)]

/-- A legacy response dict.  `currentField`/`collectedData` are `none` when
the corresponding key is absent from the dict literal. -/
structure LegacyResponse where
  message : Vstr
  intent : Vstr
  sources : List Vstr
  formActive : Bool
  currentField : Option Vstr
  collectedData : Option (List (Vstr × Vstr))
deriving DecidableEq, Repr

/-- The display-name resolution loop of `_complete_form_collection` (lines
244-250): default to the field name, but on the first question with a
matching `field_name` subscript its (absent) `display_name` key. -/
def displayNameOf (questions : List GenQuestion) (fieldName : Vstr) : Except Vstr Vstr :=
  match questions.find? (fun q => decide (q.fieldName = fieldName)) with
  | some q => q.lookup "display_name".data
  | none => Except.ok fieldName

/-- The summary body of `_complete_form_collection`: one
`• {display_name}: {value}\n` line per collected pair, in insertion order. -/
def summaryLines (questions : List GenQuestion) : List (Vstr × Vstr) → Except Vstr Vstr
  | [] => Except.ok []
  | (k, v) :: rest => do
    let dn ← displayNameOf questions k
    let tail ← summaryLines questions rest
    Except.ok ("• ".data ++ dn ++ ": ".data ++ v ++ "\n".data ++ tail)

/-- Models `_complete_form_collection` (chatbot.py lines 232-263): capture the
collected data, reset the state (the `questions` list is kept), then build
the summary and return the captured data in the response.  (In Python the
state reset precedes the summary loop, so when the loop raises the reset has
already happened; the `Except.error` value does not carry that state.) -/
def complete_form_collection (st : FormCollectionState) :
    Except Vstr (LegacyResponse × FormCollectionState) := do
  let collected := st.collectedData
  let st2 : FormCollectionState :=
    { st with active := false, currentFieldIndex := 0, collectedData := [] }
  let body ← summaryLines st2.questions collected
  let summary :=
    "🎉 Đã thu thập đủ thông tin! Dưới đây là tóm tắt:\n\n".data ++ body ++
      "\n📋 Bộ hồ sơ đăng ký kinh doanh đã được chuẩn bị với thông tin trên.".data ++
      "\n\nBạn có muốn chỉnh sửa thông tin nào không? Hoặc có câu hỏi gì khác về quy trình đăng ký?".data
  Except.ok
    ({ message := summary, intent := "business".data, sources := [], formActive := false,
       currentField := none, collectedData := some collected }, st2)

/-- Models `_handle_form_collection` (chatbot.py lines 181-230).  A cursor at
or past the end completes immediately; otherwise the input is validated
against the current field: on failure the state is untouched and a re-prompt
is built (subscripting the absent `display_name` key), on success the value
is stored, the cursor advances, and either completion or the
next-question message (also subscripting `display_name`) follows. -/
def handle_form_collection (catalog : List (List TPField)) (st : FormCollectionState)
    (userInput : Vstr) : Except Vstr (LegacyResponse × FormCollectionState) :=
  if h : st.questions.length ≤ st.currentFieldIndex then
    complete_form_collection st
  else
    have hlt : st.currentFieldIndex < st.questions.length := by omega
    let currentQuestion := st.questions[st.currentFieldIndex]
    let fieldName := currentQuestion.fieldName
    let v := validate_field_value catalog fieldName userInput
    if !v.1 then do
      let dn ← currentQuestion.lookup "display_name".data
      let message :=
        "❌ ".data ++ v.2 ++ "\n\nVui lòng nhập lại ".data ++ pyLower dn ++ ":".data
      Except.ok
        ({ message := message, intent := "business".data, sources := [], formActive := true,
           currentField := some fieldName, collectedData := none }, st)
    else
      let st1 : FormCollectionState :=
        { st with collectedData := dictInsert st.collectedData fieldName userInput,
                  currentFieldIndex := st.currentFieldIndex + 1 }
      if h2 : st.questions.length ≤ st.currentFieldIndex + 1 then
        complete_form_collection st1
      else do
        have hlt2 : st.currentFieldIndex + 1 < st.questions.length := by omega
        let nextQuestion := st.questions[st.currentFieldIndex + 1]
        let dn ← currentQuestion.lookup "display_name".data
        let message :=
          "✅ Đã lưu: ".data ++ dn ++ "\n\n".data ++ "Tiếp theo: ".data ++
            nextQuestion.question ++
            (if !nextQuestion.description.isEmpty then "\n📝 ".data ++ nextQuestion.description
             else [])
        Except.ok
          ({ message := message, intent := "business".data, sources := [], formActive := true,
             currentField := some nextQuestion.fieldName, collectedData := none }, st1)

/-! ## Legacy conversation context (chatbot.py lines 265-278) -/

/-- One legacy history dict (role and content; the timestamp is never read by
the context builder). -/
structure HistEntry where
  role : Vstr
  content : Vstr
deriving DecidableEq, Repr

/-- One rendered context line: `"{Người dùng|Bot}: {content}"`. -/
def renderEntry (e : HistEntry) : Vstr :=
  (if e.role = "user".data then "Người dùng: ".data else "Bot: ".data) ++ e.content

/-- Models `_get_conversation_context`: empty when at most one message exists,
else the newline-join of the rendered last `2 * max_history` entries. -/
def get_conversation_context (hist : List HistEntry) (maxHistory : Nat := 3) : Vstr :=
  if hist.length ≤ 1 then []
  else joinNl ((lastN (maxHistory * 2) hist).map renderEntry)

/-- The context actually fed to the intent classifier in a legacy turn:
`process_message` (chatbot.py lines 56-68) first appends the incoming user
message to the history and only then calls `_get_conversation_context`. -/
def contextForTurn (hist : List HistEntry) (userInput : Vstr) : Vstr :=
  get_conversation_context (hist ++ [{ role := "user".data, content := userInput }])

/-! ## New-architecture entities and orchestrator boundary
(core/entities, core/use_cases/chat_use_case.py) -/

/-- Models `FieldType` (core/entities/form.py). -/
inductive FieldType
  | text | number | date | email | phone
deriving DecidableEq, Repr

/-- Models `FormField` (core/entities/form.py). -/
structure FormField where
  fieldName : Vstr
  displayName : Vstr
  fieldType : FieldType
  required : Bool
  description : Vstr
deriving DecidableEq, Repr

/-- Models `FormTemplate` (core/entities/form.py); display metadata that no claim
reads is omitted. -/
structure FormTemplate where
  name : Vstr
  displayName : Vstr
  description : Vstr
  fields : List FormField
deriving DecidableEq, Repr

/-- Models `FormTemplate.get_field_by_name`. -/
def FormTemplate.getFieldByName (t : FormTemplate) (fieldName : Vstr) : Option FormField :=
  t.fields.find? (fun f => decide (f.fieldName = fieldName))

/-- Models `ChatUseCase._validate_field_value` (chat_use_case.py lines
431-463): unknown fields are vacuously valid; required fields reject
whitespace-only values; then the `date`, `number` and `email` type rules
apply, with `text` and `phone` falling through to valid. -/
def validateFieldValueUC (template : FormTemplate) (fieldName value : Vstr) : Bool × Vstr :=
  match template.getFieldByName fieldName with
  | none => (true, [])
  | some f =>
    if f.required && (pyStrip value).isEmpty then
      (false, "Trường này là bắt buộc".data)
    else if f.fieldType = FieldType.date then
      if dateMatch value then (true, [])
      else (false, "Định dạng ngày không đúng. Vui lòng nhập theo format dd/mm/yyyy".data)
    else if f.fieldType = FieldType.number then
      if pyFloatParses (stripSeparators value) then (true, [])
      else (false, "Giá trị phải là số".data)
    else if f.fieldType = FieldType.email then
      if emailMatch value then (true, [])
      else (false, "Định dạng email không đúng".data)
    else (true, [])

/-- Models `MessageRole` (core/entities/conversation.py). -/
inductive MessageRole
  | user | assistant | system
deriving DecidableEq, Repr

/-- A metadata dict value (booleans and strings are the only kinds the
orchestrator stores). -/
inductive MetaVal
  | bool (b : Bool)
  | str (s : Vstr)
deriving DecidableEq, Repr

/-- A `Message` of the new architecture (id and timestamp omitted: no claim
reads them). -/
structure UCMessage where
  role : MessageRole
  content : Vstr
  intent : Option Vstr
deriving DecidableEq, Repr

/-- Models `ChatResponse` (core/entities/conversation.py), with the dataclass
defaults. Sources are kept opaque. -/
structure UCChatResponse where
  message : Vstr
  intent : Option Vstr := none
  sources : List Vstr := []
  formActive : Bool := false
  currentField : Option Vstr := none
  collectedData : List (Vstr × Vstr) := []
  metadata : List (Vstr × MetaVal) := []
deriving DecidableEq, Repr

/-- Models `FormCollectionState` (core/entities/form.py), as far as the claims read
it. -/
structure FormStateUC where
  templateName : Vstr
  currentFieldIndex : Nat
  questions : List FormField
  formData : List (Vstr × Vstr)
  isActive : Bool
deriving DecidableEq, Repr

/-- The error response built by the `except` arm of
`ChatUseCase.process_message` (lines 170-174). -/
def errorChatResponse (e : Vstr) : UCChatResponse :=
  { message := "Xin lỗi, tôi gặp lỗi khi xử lý tin nhắn của bạn. Vui lòng thử lại.".data,
    metadata := [("error".data, MetaVal.bool true), ("error_message".data, MetaVal.str e)] }

/-- Dict lookup in a response metadata map. -/
def metaLookup (m : List (Vstr × MetaVal)) (k : Vstr) : Option MetaVal :=
  (m.find? (fun p => decide (p.1 = k))).map Prod.snd

/-- Models `ChatUseCase.process_message` (chat_use_case.py lines 43-174) for
an existing conversation.  The user message is appended first (line 74, an
in-place mutation of the stored `Conversation`, which
`MemoryConversationRepository.get_conversation` hands out by reference, so it
persists whether or not `save_conversation` runs).  `dispatch` abstracts the
form-collection branch or intent classification plus the intent handler; in
the source, every `await` that can raise inside `_handle_form_collection`
precedes its state mutations, and the other handlers never touch the form
state, so a raising dispatch leaves the form state as given.  `post`
abstracts `save_conversation` and the metrics calls that follow the
assistant-message append.  Any exception is caught by the boundary
`except` and becomes `errorChatResponse`. -/
def process_message (conversation : List UCMessage) (formState : FormStateUC)
    (userMessage : Vstr) (dispatch : Except Vstr (UCChatResponse × FormStateUC))
    (post : Except Vstr Unit) : UCChatResponse × List UCMessage × FormStateUC :=
  let conv1 := conversation ++ [{ role := MessageRole.user, content := userMessage, intent := none }]
  match dispatch with
  | Except.error e => (errorChatResponse e, conv1, formState)
  | Except.ok (response, formState1) =>
    let conv2 := conv1 ++
      [{ role := MessageRole.assistant, content := response.message, intent := response.intent }]
    match post with
    | Except.error e => (errorChatResponse e, conv2, formState1)
    | Except.ok _ => (response, conv2, formState1)

/-! ## Claim-side and concrete-input definitions -/

/-- Claim-side first-occurrence deduplication by a key, with an accumulator of
already-seen keys. -/
def firstOccur {α : Type} (key : α → Vstr) : List α → List Vstr → List α
  | [], _ => []
  | x :: xs, seen =>
    if key x ∈ seen then firstOccur key xs seen
    else x :: firstOccur key xs (key x :: seen)

/-- A one-template catalog containing an email-typed required field, in the
shape the legacy parser's field dicts have. -/
def emailCatalog : List (List TPField) :=
  [[⟨"lien_he_email".data, "Email liên hệ".data, "email".data, true,
      "Địa chỉ email liên hệ".data⟩]]

/-- The question list actually loaded by the legacy chatbot at startup. -/
def legacyQuestions : List GenQuestion := generate_form_collection_questions legacyCatalog

/-- The legacy form-collection state right after `_handle_business_request`
activates the form: cursor 0, no collected data. -/
def freshFormState : FormCollectionState :=
  { active := true, currentFieldIndex := 0, collectedData := [], questions := legacyQuestions }

/-- The legacy state at field 2 (the date-typed birth-date field), with the
two earlier fields already collected. -/
def dateFieldFormState : FormCollectionState :=
  { active := true, currentFieldIndex := 2,
    collectedData := [("chu_so_huu_ho_ten".data, "Nguyễn Văn A".data),
                      ("chu_so_huu_cccd".data, "012345678901".data)],
    questions := legacyQuestions }

/-- A concrete pre-turn conversation for the C1 counterexample. -/
def convBefore : List UCMessage :=
  [{ role := MessageRole.user, content := "xin chào".data, intent := none }]

/-- A concrete pre-turn form state for the C1 counterexample. -/
def formBefore : FormStateUC :=
  { templateName := "giay_de_nghi.docx".data, currentFieldIndex := 0, questions := [],
    formData := [], isActive := false }

/-! ## Helper lemmas -/

theorem startsWith_iff (h n : Vstr) : startsWith h n = true ↔ ∃ t, h = n ++ t := by
  induction n generalizing h with
  | nil => simp [startsWith]
  | cons b bs ih =>
    cases h with
    | nil => simp [startsWith]
    | cons a as =>
      simp only [startsWith, Bool.and_eq_true, decide_eq_true_eq, ih, List.cons_append,
        List.cons.injEq]
      constructor
      · rintro ⟨rfl, t, rfl⟩
        exact ⟨t, rfl, rfl⟩
      · rintro ⟨t, rfl, rfl⟩
        exact ⟨rfl, t, rfl⟩

theorem containsSeq_iff (needle hay : Vstr) :
    containsSeq needle hay = true ↔ ∃ s t, hay = s ++ needle ++ t := by
  induction hay with
  | nil =>
    simp only [containsSeq, List.isEmpty_iff]
    constructor
    · rintro rfl
      exact ⟨[], [], rfl⟩
    · rintro ⟨s, t, h⟩
      rcases List.append_eq_nil.mp (List.append_eq_nil.mp h.symm).1 with ⟨-, h2⟩
      exact h2
  | cons c t ih =>
    simp only [containsSeq, Bool.or_eq_true, startsWith_iff, ih]
    constructor
    · rintro (⟨u, hu⟩ | ⟨s, u, hu⟩)
      · exact ⟨[], u, by simpa using hu⟩
      · exact ⟨c :: s, u, by simp [hu]⟩
    · rintro ⟨s, u, hu⟩
      cases s with
      | nil => exact Or.inl ⟨u, by simpa using hu⟩
      | cons x xs =>
        simp only [List.cons_append, List.cons.injEq] at hu
        exact Or.inr ⟨xs, u, by simp [hu.2]⟩

theorem joinNl_append_single (ps : List Vstr) (p : Vstr) (h : ps ≠ []) :
    joinNl (ps ++ [p]) = joinNl ps ++ '\n' :: p := by
  induction ps with
  | nil => exact absurd rfl h
  | cons x xs ih =>
    cases xs with
    | nil => simp [joinNl]
    | cons y ys =>
      have := ih (by simp)
      simp only [List.cons_append] at this ⊢
      rw [joinNl, this, joinNl]
      simp

theorem mem_dropWhile_of_not {α : Type} {p : α → Bool} {c : α} :
    ∀ {l : List α}, c ∈ l → p c = false → c ∈ l.dropWhile p := by
  intro l
  induction l with
  | nil => intro h; cases h
  | cons a t ih =>
    intro hmem hpc
    by_cases hpa : p a = true
    · rw [List.dropWhile_cons_of_pos hpa]
      rcases List.mem_cons.mp hmem with rfl | ht
      · rw [hpc] at hpa; cases hpa
      · exact ih ht hpc
    · rw [List.dropWhile_cons_of_neg hpa]
      exact hmem

theorem pyStrip_ne_nil {s : Vstr} {c : Char} (hc : c ∈ s) (hw : isWs c = false) :
    pyStrip s ≠ [] := by
  intro hnil
  unfold pyStrip at hnil
  have h1 : (s.dropWhile isWs).reverse.dropWhile isWs = [] := by
    simpa using congrArg List.reverse hnil
  have h2 : ∀ x ∈ (s.dropWhile isWs).reverse, isWs x = true :=
    List.dropWhile_eq_nil_iff.mp h1
  have h3 : c ∈ (s.dropWhile isWs).reverse :=
    List.mem_reverse.mpr (mem_dropWhile_of_not hc hw)
  rw [h2 c h3] at hw
  cases hw

theorem dropWhile_head_false {α : Type} {p : α → Bool} :
    ∀ {l : List α} {x : α} {xs : List α}, l.dropWhile p = x :: xs → p x = false := by
  intro l
  induction l with
  | nil => intro x xs h; cases h
  | cons a t ih =>
    intro x xs h
    by_cases hpa : p a = true
    · rw [List.dropWhile_cons_of_pos hpa] at h
      exact ih h
    · rw [List.dropWhile_cons_of_neg hpa] at h
      cases h
      exact Bool.eq_false_iff.mpr hpa

theorem stripTrailingNl_sublist (s : Vstr) : (stripTrailingNl s).Sublist s := by
  unfold stripTrailingNl
  split
  · split
    · exact List.dropLast_sublist s
    · exact List.Sublist.refl s
  · exact List.Sublist.refl s

theorem emailMatch_at_mem {v : Vstr} (h : emailMatch v = true) : '@' ∈ v := by
  simp only [emailMatch, List.span_eq_take_drop] at h
  rcases hd : (stripTrailingNl v).dropWhile (fun c => c != '@') with _ | ⟨x, dom⟩
  · rw [hd] at h; cases h
  · have hx := dropWhile_head_false (p := fun c => c != '@') hd
    have hx2 : x = '@' := by
      simpa using hx
    have hmem : x ∈ stripTrailingNl v := by
      have hsub := List.dropWhile_sublist (l := stripTrailingNl v) (fun c => c != '@')
      exact hsub.subset (hd ▸ List.mem_cons_self x dom)
    have hmv : x ∈ v := (stripTrailingNl_sublist v).subset hmem
    exact hx2 ▸ hmv

theorem emailMatch_strip_ne_nil {v : Vstr} (h : emailMatch v = true) :
    (pyStrip v).isEmpty = false := by
  have := pyStrip_ne_nil (emailMatch_at_mem h) (by decide)
  rcases hs : pyStrip v with _ | _
  · exact absurd hs this
  · rfl

theorem map_docKey_zipWith :
    ∀ (docs : List PyDoc) (scores : List ℚ),
      (docs.zipWith annotate scores).map (fun d => (d.content, d.chunkTitle)) =
        (docs.take scores.length).map (fun d => (d.content, d.chunkTitle)) := by
  intro docs
  induction docs with
  | nil => intro scores; simp
  | cons d ds ih =>
    intro scores
    cases scores with
    | nil => simp
    | cons s ss => simp [List.zipWith, annotate, ih]

theorem mem_zipWith_annotate :
    ∀ {docs : List PyDoc} {scores : List ℚ} {d : PyDoc},
      d ∈ docs.zipWith annotate scores → ∃ d0 ∈ docs, ∃ s, d = annotate d0 s := by
  intro docs
  induction docs with
  | nil => intro scores d h; cases h
  | cons a as ih =>
    intro scores d h
    cases scores with
    | nil => cases h
    | cons s ss =>
      rcases List.mem_cons.mp h with rfl | ht
      · exact ⟨a, List.mem_cons_self a as, s, rfl⟩
      · obtain ⟨d0, hd0, s2, hs2⟩ := ih ht
        exact ⟨d0, List.mem_cons_of_mem a hd0, s2, hs2⟩

theorem genQuestionsAux_eq (l : List TPField) :
    ∀ seen, genQuestionsAux l seen =
      (firstOccur TPField.fieldName (l.filter (fun f => f.required)) seen).map mkQuestion := by
  induction l with
  | nil => intro seen; rfl
  | cons f fs ih =>
    intro seen
    by_cases hr : f.required = true
    · by_cases hmem : f.fieldName ∈ seen
      · simp [genQuestionsAux, firstOccur, List.filter_cons, hr, hmem, ih]
      · simp [genQuestionsAux, firstOccur, List.filter_cons, hr, hmem, ih]
    · have hr2 : f.required = false := Bool.not_eq_true _ ▸ Bool.eq_false_iff.mpr hr
      simp [genQuestionsAux, List.filter_cons, hr2, hr, ih]

theorem firstOccur_subset {α : Type} (key : α → Vstr) :
    ∀ (l : List α) (seen : List Vstr) (x : α), x ∈ firstOccur key l seen → x ∈ l := by
  intro l
  induction l with
  | nil => intro seen x h; cases h
  | cons a as ih =>
    intro seen x h
    by_cases hmem : key a ∈ seen
    · rw [firstOccur, if_pos hmem] at h
      exact List.mem_cons_of_mem a (ih seen x h)
    · rw [firstOccur, if_neg hmem] at h
      rcases List.mem_cons.mp h with rfl | ht
      · exact List.mem_cons_self _ _
      · exact List.mem_cons_of_mem _ (ih _ x ht)

theorem mem_map_key_firstOccur {α : Type} (key : α → Vstr) :
    ∀ (l : List α) (seen : List Vstr) (n : Vstr),
      n ∈ (firstOccur key l seen).map key ↔ n ∈ l.map key ∧ n ∉ seen := by
  intro l
  induction l with
  | nil => intro seen n; simp [firstOccur]
  | cons a as ih =>
    intro seen n
    by_cases hmem : key a ∈ seen
    · rw [firstOccur, if_pos hmem]
      rw [ih]
      simp only [List.map_cons, List.mem_cons]
      constructor
      · rintro ⟨h1, h2⟩
        exact ⟨Or.inr h1, h2⟩
      · rintro ⟨h1 | h1, h2⟩
        · exact absurd (h1 ▸ hmem) h2
        · exact ⟨h1, h2⟩
    · rw [firstOccur, if_neg hmem]
      simp only [List.map_cons, List.mem_cons, ih]
      constructor
      · rintro (rfl | ⟨h1, h2⟩)
        · exact ⟨Or.inl rfl, hmem⟩
        · exact ⟨Or.inr h1, fun hn => h2 (Or.inr hn)⟩
      · rintro ⟨rfl | h1, h2⟩
        · exact Or.inl rfl
        · by_cases hka : n = key a
          · exact Or.inl hka
          · exact Or.inr ⟨h1, fun hcontra => hcontra.elim hka h2⟩

theorem nodup_map_key_firstOccur {α : Type} (key : α → Vstr) :
    ∀ (l : List α) (seen : List Vstr), ((firstOccur key l seen).map key).Nodup := by
  intro l
  induction l with
  | nil => intro seen; simp [firstOccur]
  | cons a as ih =>
    intro seen
    by_cases hmem : key a ∈ seen
    · rw [firstOccur, if_pos hmem]; exact ih seen
    · rw [firstOccur, if_neg hmem]
      simp only [List.map_cons, List.nodup_cons]
      refine ⟨?_, ih _⟩
      intro hka
      exact ((mem_map_key_firstOccur key as (key a :: seen) (key a)).mp hka).2
        (List.mem_cons_self _ _)

/-- C9: the generated form-collection question list is exactly the
deduplicated (by field name, first-seen order) sequence of required fields of
all loaded templates: it equals the first-occurrence dedup of the
required-filtered field concatenation (so the order is the order of first
occurrence across templates), every question is required, field names are
pairwise distinct, and a field name is asked iff some template has a required
field with that name. -/
theorem generated_questions_required_dedup (catalog : List (List TPField)) :
    generate_form_collection_questions catalog =
      (firstOccur TPField.fieldName (catalog.flatten.filter (fun f => f.required)) []).map
        mkQuestion ∧
    ((generate_form_collection_questions catalog).map GenQuestion.fieldName).Nodup ∧
    (∀ q ∈ generate_form_collection_questions catalog, q.required = true) ∧
    (∀ n : Vstr,
      n ∈ (generate_form_collection_questions catalog).map GenQuestion.fieldName ↔
        ∃ f ∈ catalog.flatten, f.required = true ∧ f.fieldName = n) := by
  have hgen := genQuestionsAux_eq catalog.flatten []
  have hkey : ∀ f : TPField, (mkQuestion f).fieldName = f.fieldName := fun f => rfl
  have hmapkey :
      (generate_form_collection_questions catalog).map GenQuestion.fieldName =
        (firstOccur TPField.fieldName (catalog.flatten.filter (fun f => f.required)) []).map
          TPField.fieldName := by
    rw [generate_form_collection_questions, hgen, List.map_map]
    rfl
  refine ⟨hgen, ?_, ?_, ?_⟩
  · rw [hmapkey]
    exact nodup_map_key_firstOccur _ _ _
  · intro q hq
    rw [generate_form_collection_questions, hgen] at hq
    obtain ⟨f, hf, rfl⟩ := List.mem_map.mp hq
    have hf2 := firstOccur_subset _ _ _ _ hf
    have := List.of_mem_filter hf2
    simpa [mkQuestion] using this
  · intro n
    rw [hmapkey, mem_map_key_firstOccur]
    simp only [List.mem_map, List.mem_filter, List.not_mem_nil, not_false_iff, and_true]
    constructor
    · rintro ⟨f, ⟨hf, hreq⟩, rfl⟩
      exact ⟨f, hf, hreq, rfl⟩
    · rintro ⟨f, hf, hreq, rfl⟩
      exact ⟨f, ⟨hf, hreq⟩, rfl⟩

/-- Witness for the C9 theorem at the concrete legacy catalog: the charter's
company-name field is asked, via the membership characterization. -/
theorem generated_questions_required_dedup_witness :
    "ten_cong_ty".data ∈
      (generate_form_collection_questions legacyCatalog).map GenQuestion.fieldName :=
  ((generated_questions_required_dedup legacyCatalog).2.2.2 "ten_cong_ty".data).mpr
    ⟨⟨"ten_cong_ty".data, "Tên công ty".data, "text".data, true,
        "Tên đầy đủ của công ty".data⟩,
      by decide, rfl, rfl⟩

/-- C10: the legacy classifier context is computed after the user message has
been appended: on the very first turn (one message in history) it is empty,
and on every later turn it ends with the current user message rendered as a
"Người dùng" line, preceded by a newline — the classifier always sees the
utterance it is classifying inside the context. -/
theorem legacy_context_contains_current_utterance (hist : List HistEntry) (input : Vstr) :
    (hist = [] → contextForTurn hist input = []) ∧
    (hist ≠ [] →
      ∃ pre : Vstr,
        contextForTurn hist input = pre ++ '\n' :: ("Người dùng: ".data ++ input)) := by
  constructor
  · rintro rfl
    rfl
  · intro hne
    have h1 : 0 < hist.length := List.length_pos.mpr hne
    have hk : hist.length + 1 - 3 * 2 ≤ hist.length := by omega
    have hdrop :
        lastN (3 * 2) (hist ++ [⟨"user".data, input⟩]) =
          hist.drop (hist.length + 1 - 3 * 2) ++ [⟨"user".data, input⟩] := by
      rw [lastN, List.length_append]
      simp only [List.length_cons, List.length_nil]
      exact List.drop_append_of_le_length hk
    have hfront : hist.drop (hist.length + 1 - 3 * 2) ≠ [] := by
      intro hcontra
      have hlen := congrArg List.length hcontra
      rw [List.length_drop] at hlen
      simp only [List.length_nil] at hlen
      omega
    refine ⟨joinNl ((hist.drop (hist.length + 1 - 3 * 2)).map renderEntry), ?_⟩
    rw [contextForTurn, get_conversation_context,
      if_neg (by simp only [List.length_append, List.length_cons, List.length_nil]; omega)]
    rw [hdrop, List.map_append]
    have hrender :
        [⟨"user".data, input⟩].map renderEntry = ["Người dùng: ".data ++ input] := rfl
    rw [hrender,
      joinNl_append_single _ _ (by simpa [List.map_eq_nil_iff] using hfront)]

/-- Witness for the C10 theorem on a concrete two-message history: the
context ends with the rendered current user message. -/
theorem legacy_context_contains_current_utterance_witness :
    ∃ pre : Vstr,
      contextForTurn [⟨"user".data, "câu 1".data⟩, ⟨"assistant".data, "trả lời".data⟩]
          "hỏi tiếp".data =
        pre ++ '\n' :: ("Người dùng: ".data ++ "hỏi tiếp".data) :=
  (legacy_context_contains_current_utterance
      [⟨"user".data, "câu 1".data⟩, ⟨"assistant".data, "trả lời".data⟩]
      "hỏi tiếp".data).2 (by simp)

/-- C4: for every (trimmed, lower-cased) backend reply, intent resolution is:
exact equality with one of legal/business/general gives that intent with
confidence 0.9; otherwise the first canonical keyword (in the order legal,
business, general) occurring as a substring gives that intent with confidence
0.7; otherwise the result is general with confidence 0.5 — resolution is a
total function and never fails the turn. -/
theorem intent_resolution_policy (reply : Vstr) :
    (reply ∈ intentKeys → classifyReply reply = (reply, 9/10)) ∧
    (reply ∉ intentKeys → (∃ s t, reply = s ++ "legal".data ++ t) →
      classifyReply reply = ("legal".data, 7/10)) ∧
    (reply ∉ intentKeys → ¬(∃ s t, reply = s ++ "legal".data ++ t) →
      (∃ s t, reply = s ++ "business".data ++ t) →
      classifyReply reply = ("business".data, 7/10)) ∧
    (reply ∉ intentKeys → ¬(∃ s t, reply = s ++ "legal".data ++ t) →
      ¬(∃ s t, reply = s ++ "business".data ++ t) →
      (∃ s t, reply = s ++ "general".data ++ t) →
      classifyReply reply = ("general".data, 7/10)) ∧
    ((∀ k ∈ intentKeys, ¬∃ s t, reply = s ++ k ++ t) →
      classifyReply reply = ("general".data, 1/2)) := by
  have hpos : ∀ k : Vstr, (∃ s t, reply = s ++ k ++ t) → containsSeq k reply = true :=
    fun k h => (containsSeq_iff k reply).mpr h
  have hneg : ∀ k : Vstr, ¬(∃ s t, reply = s ++ k ++ t) → containsSeq k reply = false := by
    intro k h
    cases hc : containsSeq k reply with
    | false => rfl
    | true => exact absurd ((containsSeq_iff k reply).mp hc) h
  refine ⟨?_, ?_, ?_, ?_, ?_⟩
  · intro hmem
    rw [classifyReply, if_pos hmem]
  · intro hnm hleg
    have e1 := hpos _ hleg
    rw [classifyReply, if_neg hnm]
    simp [intentKeys, List.find?_cons, e1]
  · intro hnm hnleg hbus
    have e1 := hneg _ hnleg
    have e2 := hpos _ hbus
    rw [classifyReply, if_neg hnm]
    simp [intentKeys, List.find?_cons, e1, e2]
  · intro hnm hnleg hnbus hgen
    have e1 := hneg _ hnleg
    have e2 := hneg _ hnbus
    have e3 := hpos _ hgen
    rw [classifyReply, if_neg hnm]
    simp [intentKeys, List.find?_cons, e1, e2, e3]
  · intro hall
    have hnm : reply ∉ intentKeys := fun hmem => hall reply hmem ⟨[], [], by simp⟩
    have e1 := hneg _ (hall "legal".data (by simp [intentKeys]))
    have e2 := hneg _ (hall "business".data (by simp [intentKeys]))
    have e3 := hneg _ (hall "general".data (by simp [intentKeys]))
    rw [classifyReply, if_neg hnm]
    simp [intentKeys, List.find?_cons, e1, e2, e3]

/-- Witness for the C4 theorem: the typo reply "businesss" is not an exact
keyword, does not contain "legal", but contains "business" as a substring, so
it resolves to business with confidence 0.7. -/
theorem intent_resolution_policy_witness :
    classifyReply "businesss".data = ("business".data, 7/10) :=
  (intent_resolution_policy "businesss".data).2.2.1
    (by decide)
    (fun hleg =>
      absurd ((containsSeq_iff "legal".data "businesss".data).mpr hleg) (by decide))
    ⟨[], ['s'], by decide⟩

theorem simScore_rerank {scorer : List (Vstr × Vstr) → Except Vstr (List ℚ)} {query : Vstr}
    {docs : List PyDoc} (hfresh : ∀ d ∈ docs, d.originalScore = none) :
    ∀ d ∈ rerank_documents scorer query docs, ∃ d0 ∈ docs, simScore d = d0.score := by
  intro d hd
  rw [rerank_documents] at hd
  split at hd
  · exact ⟨d, hd, by simp [simScore, hfresh d hd]⟩
  · split at hd
    · exact ⟨d, hd, by simp [simScore, hfresh d hd]⟩
    · split at hd
      · rcases List.mem_append.mp hd with hz | hdr
        · obtain ⟨d0, hd0, s, rfl⟩ := mem_zipWith_annotate hz
          exact ⟨d0, hd0, by simp [simScore, annotate]⟩
        · have hmem := List.drop_subset _ _ hdr
          exact ⟨d, hmem, by simp [simScore, hfresh d hmem]⟩
      · have hmem := (List.mergeSort_perm _ _).mem_iff.mp hd
        obtain ⟨d0, hd0, s, rfl⟩ := mem_zipWith_annotate hmem
        exact ⟨d0, hd0, by simp [simScore, annotate]⟩

/-- C6: no candidate whose vector-similarity score is strictly below the
configured similarity threshold ever appears in the list returned by
`retrieve` (even after reranking overwrites `score`, the admitted similarity
is preserved in `original_score`); and when no candidate meets the threshold,
`retrieve` returns the empty list rather than raising. -/
theorem retrieval_threshold_invariant (thr : ℚ) (k : Nat)
    (scorer : List (Vstr × Vstr) → Except Vstr (List ℚ)) (query : Vstr) (ctx : Option Vstr)
    (initialDocs : List SearchHit) :
    (∀ d ∈ retrieve thr k scorer query ctx initialDocs, thr ≤ simScore d) ∧
    ((∀ h ∈ initialDocs, h.score < thr) →
      retrieve thr k scorer query ctx initialDocs = []) := by
  constructor
  · intro d hd
    simp only [retrieve] at hd
    split at hd
    · cases hd
    · split at hd
      · cases hd
      · have hd2 := List.take_subset _ _ hd
        have hfresh :
            ∀ d0 ∈ (initialDocs.filter fun h => thr ≤ h.score).map SearchHit.toDoc,
              d0.originalScore = none := by
          intro d0 hd0
          obtain ⟨h0, -, rfl⟩ := List.mem_map.mp hd0
          rfl
        obtain ⟨d0, hd0, hsim⟩ := simScore_rerank hfresh d hd2
        obtain ⟨h0, hh0, rfl⟩ := List.mem_map.mp hd0
        rw [hsim]
        have hf := (List.mem_filter.mp hh0).2
        simpa [SearchHit.toDoc] using hf
  · intro hall
    simp only [retrieve]
    split
    · rfl
    · split
      · rfl
      · next hne hf =>
        exfalso
        apply hf
        rw [List.isEmpty_iff, List.filter_eq_nil_iff]
        intro a ha
        simp only [decide_eq_true_eq, not_le]
        exact hall a ha

/-- Witness for the C6 theorem: with a single candidate below the 0.7
threshold, retrieval returns the empty list. -/
theorem retrieval_threshold_invariant_witness :
    retrieve 1 5 (fun _ => Except.ok [1]) "điều 15".data none
      [⟨"điều 15 luật doanh nghiệp".data, none, 0⟩] = [] :=
  (retrieval_threshold_invariant 1 5 (fun _ => Except.ok [1]) "điều 15".data none
    [⟨"điều 15 luật doanh nghiệp".data, none, 0⟩]).2 (by decide)

/-- C7: reranking is a total reorder, never a filter: for every query, every
scorer behaviour and every document list, the output is a permutation of the
input on document identity (content and chunk title), with nothing added or
dropped; a list of one or zero documents is returned unchanged; and when the
scorer succeeds with enough scores on a list of at least two documents, every
output document carries a `rerank_score` and the output is ordered descending
by that score. -/
theorem rerank_is_permutation (scorer : List (Vstr × Vstr) → Except Vstr (List ℚ))
    (query : Vstr) (docs : List PyDoc) :
    ((rerank_documents scorer query docs).map (fun d => (d.content, d.chunkTitle))).Perm
        (docs.map (fun d => (d.content, d.chunkTitle))) ∧
    (docs.length ≤ 1 → rerank_documents scorer query docs = docs) ∧
    (∀ scores, scorer (docs.map fun d => (query, docRepText d)) = Except.ok scores →
      docs.length ≤ scores.length → 2 ≤ docs.length →
      ((∀ d ∈ rerank_documents scorer query docs, d.rerankScore.isSome = true) ∧
        (rerank_documents scorer query docs).Pairwise
          (fun a b => rerankKey b ≤ rerankKey a))) := by
  refine ⟨?_, ?_, ?_⟩
  · rw [rerank_documents]
    split
    · exact List.Perm.refl _
    · split
      · exact List.Perm.refl _
      · split
        · rw [List.map_append, map_docKey_zipWith, ← List.map_append,
            List.take_append_drop]
        · next scores hlt =>
          refine ((List.mergeSort_perm _ _).map _).trans ?_
          rw [map_docKey_zipWith, List.take_of_length_le (by omega)]
  · intro h
    rw [rerank_documents, if_pos h]
  · intro scores hs hlen h2
    have hr : rerank_documents scorer query docs =
        (docs.zipWith annotate scores).mergeSort
          (fun a b => decide (rerankKey b ≤ rerankKey a)) := by
      rw [rerank_documents, if_neg (by omega)]
      simp only [hs]
      rw [if_neg (by omega)]
    constructor
    · intro d hd
      rw [hr] at hd
      have hmem := (List.mergeSort_perm _ _).mem_iff.mp hd
      obtain ⟨d0, -, s, rfl⟩ := mem_zipWith_annotate hmem
      rfl
    · rw [hr]
      have htrans : ∀ a b c : PyDoc, decide (rerankKey b ≤ rerankKey a) = true →
          decide (rerankKey c ≤ rerankKey b) = true →
          decide (rerankKey c ≤ rerankKey a) = true := by
        intro a b c hab hbc
        simp only [decide_eq_true_eq] at hab hbc ⊢
        exact le_trans hbc hab
      have htotal : ∀ a b : PyDoc,
          (decide (rerankKey b ≤ rerankKey a) || decide (rerankKey a ≤ rerankKey b)) = true := by
        intro a b
        simp only [Bool.or_eq_true, decide_eq_true_eq]
        exact le_total (rerankKey b) (rerankKey a)
      exact (List.sorted_mergeSort htrans htotal
        (docs.zipWith annotate scores)).imp (fun h => by simpa using h)

/-- Witness for the C7 theorem: a singleton list is returned unchanged, and
on a two-document list with a successful scorer every output document is
annotated with a rerank score. -/
theorem rerank_is_permutation_witness :
    (rerank_documents (fun _ => Except.ok [1, 2]) "q".data
        [⟨"đoạn a".data, none, 2, none, none⟩] =
      [⟨"đoạn a".data, none, 2, none, none⟩]) ∧
    (∀ d ∈ rerank_documents (fun _ => Except.ok [1, 2]) "q".data
        [⟨"đoạn a".data, none, 2, none, none⟩, ⟨"đoạn b".data, none, 3, none, none⟩],
      d.rerankScore.isSome = true) :=
  ⟨(rerank_is_permutation (fun _ => Except.ok [1, 2]) "q".data
      [⟨"đoạn a".data, none, 2, none, none⟩]).2.1 (by decide),
    ((rerank_is_permutation (fun _ => Except.ok [1, 2]) "q".data
      [⟨"đoạn a".data, none, 2, none, none⟩, ⟨"đoạn b".data, none, 3, none, none⟩]).2.2
      [1, 2] rfl (by decide) (by decide)).1⟩

/-- C8: when the external reranking scorer raises on every input, the
exception is not propagated: the pipeline returns the pre-rerank,
threshold-filtered candidate list in its original similarity order, scores
untouched (truncated to `rerank_top_k` as in every path). -/
theorem rerank_failure_fallback (thr : ℚ) (k : Nat)
    (scorer : List (Vstr × Vstr) → Except Vstr (List ℚ)) (query : Vstr) (ctx : Option Vstr)
    (initialDocs : List SearchHit)
    (hfail : ∀ ps, ∃ e, scorer ps = Except.error e) :
    retrieve thr k scorer query ctx initialDocs =
      ((initialDocs.filter fun h => thr ≤ h.score).map SearchHit.toDoc).take k := by
  simp only [retrieve]
  split
  · next hi =>
    rw [List.isEmpty_iff] at hi
    rw [hi]
    simp
  · split
    · next hf =>
      rw [List.isEmpty_iff] at hf
      rw [hf]
      simp
    · rw [rerank_documents]
      split
      · rfl
      · obtain ⟨e, he⟩ := hfail _
        rw [he]

/-- Witness for the C8 theorem: three candidates, one below threshold, with a
scorer that always raises — the two surviving candidates come back in
similarity order with untouched scores. -/
theorem rerank_failure_fallback_witness :
    retrieve 1 5 (fun _ => Except.error "lỗi reranker".data) "điều 15".data none
        [⟨"đoạn a".data, none, 3⟩, ⟨"đoạn b".data, some "Điều 15".data, 2⟩,
         ⟨"đoạn c".data, none, 0⟩] =
      [⟨"đoạn a".data, none, 3, none, none⟩,
       ⟨"đoạn b".data, some "Điều 15".data, 2, none, none⟩] := by
  rw [rerank_failure_fallback 1 5 _ "điều 15".data none _
    (fun ps => ⟨"lỗi reranker".data, rfl⟩)]
  decide

/-- C5 counterexample: the legacy validator
`TemplateParser.validate_field_value` has no email branch — for a field whose
type is `email`, the clearly non-email value "khong-phai-email" is accepted
as valid, contradicting the claim that every non-matching input is rejected. -/
theorem legacy_email_field_accepts_anything :
    (validate_field_value emailCatalog "lien_he_email".data "khong-phai-email".data).1 =
        true ∧
    emailMatch "khong-phai-email".data = false := ⟨rfl, rfl⟩

/-- C5 (amended): the new-architecture validator
`ChatUseCase._validate_field_value` does enforce the email rule: for a field
of type `email`, a value is accepted iff it matches the
`local@domain.tld` regex, and every rejected value gets the email
format-hint message (or the required-field message when the value is
whitespace-only and the field required). The legacy
`TemplateParser.validate_field_value` accepts any value for an email-typed
field (see the counterexample). -/
theorem email_validation_uc (template : FormTemplate) (fieldName value : Vstr)
    (f : FormField) (hf : template.getFieldByName fieldName = some f)
    (ht : f.fieldType = FieldType.email) :
    ((validateFieldValueUC template fieldName value).1 = true ↔
        emailMatch value = true) ∧
    (emailMatch value = false →
      (validateFieldValueUC template fieldName value).2 =
          "Định dạng email không đúng".data ∨
        (validateFieldValueUC template fieldName value).2 =
          "Trường này là bắt buộc".data) := by
  simp only [validateFieldValueUC, hf]
  by_cases hreq : (f.required && (pyStrip value).isEmpty) = true
  · rw [if_pos hreq]
    have hempty : (pyStrip value).isEmpty = true := by
      have hconj := hreq
      simp only [Bool.and_eq_true] at hconj
      exact hconj.2
    refine ⟨⟨fun h => by simp at h, fun hm => ?_⟩, fun _ => Or.inr rfl⟩
    rw [emailMatch_strip_ne_nil hm] at hempty
    cases hempty
  · rw [if_neg hreq, ht]
    rw [if_neg (by decide : ¬(FieldType.email = FieldType.date)),
      if_neg (by decide : ¬(FieldType.email = FieldType.number)),
      if_pos rfl]
    cases hm : emailMatch value with
    | false =>
      rw [if_neg (by simp)]
      exact ⟨⟨fun h => by simp at h, fun h2 => nomatch h2⟩, fun _ => Or.inl rfl⟩
    | true =>
      rw [if_pos rfl]
      exact ⟨⟨fun _ => rfl, fun _ => rfl⟩, fun hfalse => nomatch hfalse⟩

/-- Witness for the C5 amended theorem: on a template with a required email
field, the matching value a@b.cd validates. -/
theorem email_validation_uc_witness :
    (validateFieldValueUC
        ⟨"lien_he.docx".data, "Liên hệ".data, "".data,
          [⟨"lien_he_email".data, "Email liên hệ".data, FieldType.email, true, "".data⟩]⟩
        "lien_he_email".data "a@b.cd".data).1 = true :=
  ((email_validation_uc
      ⟨"lien_he.docx".data, "Liên hệ".data, "".data,
        [⟨"lien_he_email".data, "Email liên hệ".data, FieldType.email, true, "".data⟩]⟩
      "lien_he_email".data "a@b.cd".data
      ⟨"lien_he_email".data, "Email liên hệ".data, FieldType.email, true, "".data⟩
      rfl rfl).1).mpr (by decide)

/-- C2 (code bug): cursor monotonicity to completion is unreachable in the
legacy machine.  The very first answer, although it passes validation,
makes `_handle_form_collection` subscript the `display_name` key that
`generate_form_collection_questions` never puts into its question dicts, so
the turn raises `KeyError('display_name')` instead of advancing — no sequence
of N valid answers can ever reach completion. -/
theorem form_first_valid_answer_raises :
    (validate_field_value legacyCatalog "chu_so_huu_ho_ten".data "Nguyễn Văn A".data).1 =
        true ∧
    handle_form_collection legacyCatalog freshFormState "Nguyễn Văn A".data =
      Except.error "display_name".data := ⟨rfl, rfl⟩

/-- C3 (code bug): at the date field, the input 2024-01-01 indeed fails
validation, but instead of re-prompting with the specific error message the
turn raises `KeyError('display_name')` while building the re-prompt (the
generated question dicts have no `display_name` key); the state is not
mutated before the raise, but the claimed reply never happens. -/
theorem form_invalid_date_raises :
    (validate_field_value legacyCatalog "chu_so_huu_ngay_sinh".data "2024-01-01".data).1 =
        false ∧
    handle_form_collection legacyCatalog dateFieldFormState "2024-01-01".data =
      Except.error "display_name".data := ⟨rfl, rfl⟩

/-- C1 counterexample: when the dispatch stage of a turn raises (here: the
vector store fails on a legal question), the conversation history after the
failed turn is NOT what it was before the turn — the user message appended at
the start of `process_message` persists on the stored conversation. -/
theorem error_turn_appends_user_message :
    (process_message convBefore formBefore "Điều 15 Luật Doanh nghiệp quy định gì?".data
        (Except.error "Weaviate connection refused".data) (Except.ok ())).2.1 ≠
      convBefore := by decide

/-- C1 (amended): when any stage after the user-message append raises, the
orchestrator boundary does catch the exception and returns the generic
apology ChatResponse with the `error` marker in its metadata, and a failing
dispatch leaves the form state unmutated; but the conversation history is not
rolled back — it is exactly the pre-turn history with the user message
appended. -/
theorem orchestrator_error_boundary (conversation : List UCMessage)
    (formState : FormStateUC) (userMessage e : Vstr) (post : Except Vstr Unit) :
    ((process_message conversation formState userMessage (Except.error e) post).1.message =
        "Xin lỗi, tôi gặp lỗi khi xử lý tin nhắn của bạn. Vui lòng thử lại.".data) ∧
    (metaLookup
        (process_message conversation formState userMessage (Except.error e) post).1.metadata
        "error".data = some (MetaVal.bool true)) ∧
    ((process_message conversation formState userMessage (Except.error e) post).2.1 =
      conversation ++ [{ role := MessageRole.user, content := userMessage, intent := none }]) ∧
    ((process_message conversation formState userMessage (Except.error e) post).2.2 =
      formState) :=
  ⟨rfl, rfl, rfl, rfl⟩
